import Mathlib

/-!
# Verification of the video-to-ascii rendering and streaming core

A shallow embedding of the repository's rendering pipeline
(`video_to_ascii/render_strategy/image_processor.py`,
`adaptive_ascii_strategy.py`, `cinematic_ascii_strategy.py`,
`render_strategy/__init__.py`) and of the SSH streaming scheduler
(`video_to_ascii/ssh_server.py`), together with theorems settling the
frozen claims about the natural-language specification.

Conventions:
* Python floats are modelled as `ℚ` (the algorithms are exact rational
  computations; no claim depends on IEEE rounding).
* Python `int(x)` (truncation toward zero) is `pyTrunc`; Python 3's
  banker's rounding `round(x)` is `pyRound`.
* Fallible code (numpy/OpenCV indexing, OpenCV calls that may raise) is
  modelled in `Except Unit`; `Except.error` stands for a raised exception.
* OpenCV kernels that live outside the repository (resize, cvtColor,
  Farneback optical flow, Sobel, morphology, ...) are abstracted as fields
  of an operation record `CinOps`; everything written in the repository's
  own Python is translated directly.
-/

namespace VideoToAscii

/-! ## Python numeric primitives -/

/-- Python `int(x)` on a float: truncation toward zero. -/
def pyTrunc (q : ℚ) : ℤ :=
  if q < 0 then -(⌊-q⌋) else ⌊q⌋

/-- Python 3 `round(x)`: round half to even (banker's rounding). -/
def pyRound (q : ℚ) : ℤ :=
  let f : ℤ := ⌊q⌋
  let r : ℚ := q - f
  if r < 1/2 then f
  else if 1/2 < r then f + 1
  else if f % 2 = 0 then f else f + 1

/-! ## colorsys (used by image_processor.py)

Exact translation of CPython's `colorsys.rgb_to_hsv` / `colorsys.hsv_to_rgb`.
-/

/-- `colorsys.rgb_to_hsv`. Works on whatever scale the caller passes. -/
def rgb_to_hsv (r g b : ℚ) : ℚ × ℚ × ℚ :=
  let maxc := max r (max g b)
  let minc := min r (min g b)
  let v := maxc
  if minc = maxc then (0, 0, v)
  else
    let s := (maxc - minc) / maxc
    let rc := (maxc - r) / (maxc - minc)
    let gc := (maxc - g) / (maxc - minc)
    let bc := (maxc - b) / (maxc - minc)
    let h := if r = maxc then bc - gc
             else if g = maxc then 2 + rc - bc
             else 4 + gc - rc
    let h := h / 6 - ⌊h / 6⌋
    (h, s, v)

/-- `colorsys.hsv_to_rgb`. `int(h*6.0)` truncates; `i % 6` is Python's
nonnegative modulo. -/
def hsv_to_rgb (h s v : ℚ) : ℚ × ℚ × ℚ :=
  if s = 0 then (v, v, v)
  else
    let i : ℤ := pyTrunc (h * 6)
    let f : ℚ := h * 6 - i
    let p := v * (1 - s)
    let q := v * (1 - s * f)
    let t := v * (1 - s * (1 - f))
    let i := i % 6
    if i = 0 then (v, t, p)
    else if i = 1 then (q, v, p)
    else if i = 2 then (p, v, t)
    else if i = 3 then (p, q, v)
    else if i = 4 then (t, p, v)
    else (q, p, v)

/-! ## image_processor.py -/

def CHARS_LIGHT : List Char := [' ', ' ', '.', ':', '!', '+', '*', 'e', '$', '@', '8']

def CHARS_COLOR : List Char := ['.', '*', 'e', 's', '◍']

def CHARS_FILLED : List Char := ['░', '▒', '▓', '█']

def CHARS_DETAILED : List Char :=
  [' ', '.', '·', ':', ';', '\'', '`', '"', '^', ',', '-', '~', '+', '<', '>', 'i',
   '!', 'I', '/', '\\', '|', '(', ')', '1', '{', '}', '[', ']', 'r', 'c', 'v', '?',
   'L', 'T', 'J', '7', 'F', 'z', 's', 'S', 'Z', 'Y', 'x', 'X', 'V', 'K', 'n', 'N',
   'k', 'K', 'H', 'A', 'G', 'E', '8', '&', '%', '@', '#']

def DENSITY : List (List Char) := [CHARS_LIGHT, CHARS_COLOR, CHARS_FILLED, CHARS_DETAILED]

/-- `image_processor.brightness_to_ascii`: `index = int(size * i / 255)`
(`int` truncates toward zero; for the in-range brightnesses of the claims the
index is within the table). -/
def brightness_to_ascii (i : ℚ) (density : ℕ) : Char :=
  let chars_collection := DENSITY.getD density []
  let size : ℕ := chars_collection.length - 1
  let index : ℤ := pyTrunc ((size : ℚ) * i / 255)
  chars_collection.getD index.toNat ' '

/-- A piece of output text together with how `xtermcolor.colorize` was
invoked on it: `rgbArg` is the second *positional* parameter of
`colorize` (a 24-bit colour), `ansiArg` is the `ansi=` keyword parameter.
Plain text has neither. -/
structure ColoredText where
  text : String
  rgbArg : Option ℤ
  ansiArg : Option ℤ
  deriving DecidableEq

/-- `colorize(s, ansi=c)` — the keyword form used by `pixel_to_ascii`. -/
def colorizeAnsi (s : String) (c : ℤ) : ColoredText := ⟨s, none, some c⟩

/-- `colorize(s, c)` — the positional form used by the cinematic strategy,
whose second positional parameter is `rgb`, not `ansi`. -/
def colorizeRgbPos (s : String) (c : ℤ) : ColoredText := ⟨s, some c, none⟩

/-- Uncolored output text. -/
def plainText (s : String) : ColoredText := ⟨s, none, none⟩

/-- A decoded pixel: one 3-channel byte triple in B,G,R order. -/
structure Pixel where
  b : ℕ
  g : ℕ
  r : ℕ
  deriving DecidableEq

/-- `image_processor.rgb_to_brightness`. -/
def rgb_to_brightness (r g b : ℚ) (grayscale : Bool) : ℚ :=
  if grayscale then 0.2126 * r + 0.7152 * g + 0.0722 * b
  else 0.267 * r + 0.642 * g + 0.091 * b

/-- `image_processor.increase_saturation`: `s+0.3` and `v+0.1`, both clamped
to `1.0`, on the `/255`-scaled HSV representation. -/
def increase_saturation (r g b : ℚ) : ℚ × ℚ × ℚ :=
  let hsv := rgb_to_hsv (r / 255) (g / 255) (b / 255)
  let s := min (hsv.2.1 + 0.3) 1
  let v := min (hsv.2.2 + 0.1) 1
  let rgb2 := hsv_to_rgb hsv.1 s v
  (rgb2.1 * 255, rgb2.2.1 * 255, rgb2.2.2 * 255)

/-- `image_processor.rgb_to_ansi`. The Python guard is written
`r == g & g == b`; `&` binds tighter than `==`, so it parses as the chained
comparison `r == (g & g) == b`, which we transcribe literally. -/
def rgb_to_ansi (r g b : ℚ) : ℤ :=
  let ri := pyTrunc r
  let gi := pyTrunc g
  let bi := pyTrunc b
  let gg := Int.land gi gi
  if ri = gg ∧ gg = bi then
    if ri < 8 then 16
    else if 248 < ri then 230
    else pyRound (((ri : ℚ) - 8) / 247 * 24) + 232
  else
    let r_in_range := pyRound ((ri : ℚ) / 51)
    let g_in_range := pyRound ((gi : ℚ) / 51)
    let b_in_range := pyRound ((bi : ℚ) / 51)
    16 + 36 * r_in_range + 6 * g_in_range + b_in_range

/-- `image_processor.pixel_to_ascii`. -/
def pixel_to_ascii (p : Pixel) (colored : Bool) (density : ℕ) : ColoredText :=
  let r : ℚ := p.r
  let g : ℚ := p.g
  let b : ℚ := p.b
  if colored then
    let bright := rgb_to_brightness r g b false
    let rgb2 := increase_saturation r g b
    let ch := brightness_to_ascii bright density
    let ansi_color := rgb_to_ansi rgb2.1 rgb2.2.1 rgb2.2.2
    colorizeAnsi (String.mk [ch, ch]) ansi_color
  else
    let bright := rgb_to_brightness r g b true
    let ch := brightness_to_ascii bright density
    plainText (String.mk [ch, ch])

/-! ## adaptive_ascii_strategy.py -/

/-- `AdaptiveAsciiStrategy.apply_pixel_to_ascii_strategy`, translated
statement by statement.  The HSV enhancement (`s*1.4`, `v*1.1`, both clamped)
and the brightness derived from it are computed and then *discarded*: the
returned value is `pixel_to_ascii(pixel, density=3)` on the unmodified pixel. -/
def AdaptiveAsciiStrategy.apply_pixel_to_ascii_strategy (p : Pixel) : ColoredText :=
  let r : ℚ := p.r
  let g : ℚ := p.g
  let b : ℚ := p.b
  let hsv := rgb_to_hsv r g b
  let s := min (hsv.2.1 * 1.4) 1
  let v := min (hsv.2.2 * 1.1) 1
  let rgb_enhanced := hsv_to_rgb hsv.1 s v
  let bright := rgb_to_brightness rgb_enhanced.1 rgb_enhanced.2.1 rgb_enhanced.2.2 false
  pixel_to_ascii p true 3

/-- The adaptive pixel path as the specification's words describe it
(§4.4 "adaptive"): boost the pixel's saturation by 40% (clamped to 1.0) and
its value by 10% (clamped to 1.0) *before* the glyph and colour lookup,
forced to the detailed tier.  Written only to be compared with the
definition translated from the source. -/
def adaptivePixelSpec (p : Pixel) : ColoredText :=
  let r : ℚ := p.r
  let g : ℚ := p.g
  let b : ℚ := p.b
  let hsv := rgb_to_hsv (r / 255) (g / 255) (b / 255)
  let s := min (hsv.2.1 * 1.4) 1
  let v := min (hsv.2.2 * 1.1) 1
  let rgb2 := hsv_to_rgb hsv.1 s v
  let r2 := rgb2.1 * 255
  let g2 := rgb2.2.1 * 255
  let b2 := rgb2.2.2 * 255
  let bright := rgb_to_brightness r2 g2 b2 false
  let ch := brightness_to_ascii bright 3
  colorizeAnsi (String.mk [ch, ch]) (rgb_to_ansi r2 g2 b2)

/-! ## cinematic_ascii_strategy.py -/

/-- A 2-D numpy array of `α`-entries, `shape = (rows, cols)`. -/
structure Mat (α : Type) where
  rows : ℕ
  cols : ℕ
  data : ℕ → ℕ → α

/-- numpy indexing `m[y, x]`: raises `IndexError` when out of bounds. -/
def Mat.read {α : Type} (m : Mat α) (y x : ℕ) : Except Unit α :=
  if y < m.rows ∧ x < m.cols then .ok (m.data y x) else .error ()

/-- `(mag > 3.0).astype(np.uint8) * 255` — elementwise threshold. -/
def thresholdMask (mag : Mat ℚ) : Mat ℕ :=
  ⟨mag.rows, mag.cols, fun y x => if 3 < mag.data y x then 255 else 0⟩

/-- `... / 255.0` elementwise (normalisation of the Sobel magnitude). -/
def matDiv255 (m : Mat ℚ) : Mat ℚ :=
  ⟨m.rows, m.cols, fun y x => m.data y x / 255⟩

/-- The OpenCV/parent-class collaborators used by `CinematicAsciiStrategy`.
They live outside the repository (OpenCV, and the parent `AsciiStrategy`
resize, which is not part of the analysed sources), so they are abstracted;
the fallible ones return `Except` (`error` = a raised exception). -/
structure CinOps where
  resizeParent : Mat Pixel → ℕ × ℕ → Mat Pixel
  toGray : Mat Pixel → Mat ℕ
  farneback : Mat ℕ → Mat ℕ → Except Unit (Mat ℚ × Mat ℚ)
  cartToPolar : Mat ℚ × Mat ℚ → Except Unit (Mat ℚ)
  morphologyOpen : Mat ℕ → Except Unit (Mat ℕ)
  morphologyClose : Mat ℕ → Except Unit (Mat ℕ)
  sobelX : Mat ℕ → Mat ℚ
  sobelY : Mat ℕ → Mat ℚ
  arctan2deg : Mat ℚ → Mat ℚ → Mat ℚ
  magnitude : Mat ℚ → Mat ℚ → Mat ℚ

/-- The mutable attributes of a `CinematicAsciiStrategy` instance.
`gradient_direction` / `gradient_magnitude` are not set by `__init__`
(the code tests them with `hasattr`), hence `Option`. -/
structure CinState where
  prev_frames : List (Mat Pixel)
  prev_gray : Option (Mat ℕ)
  prev_motion : Option (Mat ℚ)
  max_frames : ℕ
  frame_count : ℕ
  human_mask : Option (Mat ℕ)
  gradient_direction : Option (Mat ℚ)
  gradient_magnitude : Option (Mat ℚ)

/-- `CinematicAsciiStrategy.__init__`. -/
def CinematicAsciiStrategy.init : CinState :=
  { prev_frames := []
    prev_gray := none
    prev_motion := none
    max_frames := 3
    frame_count := 0
    human_mask := none
    gradient_direction := none
    gradient_magnitude := none }

/-- The body of the `try:` block in `CinematicAsciiStrategy.resize_frame`:
Farneback flow, magnitude, threshold at 3.0, morphological open then close.
Any raised error propagates out of this computation (to be caught by the
`except` of `resize_frame`). -/
def tryMotion (ops : CinOps) (prev_gray gray : Mat ℕ) : Except Unit (Mat ℕ × Mat ℚ) := do
  let flow ← ops.farneback prev_gray gray
  let mag ← ops.cartToPolar flow
  let motion_mask := thresholdMask mag
  let motion_mask ← ops.morphologyOpen motion_mask
  let motion_mask ← ops.morphologyClose motion_mask
  pure (motion_mask, mag)

/-- `CinematicAsciiStrategy.resize_frame`, as a transition on the instance
state: returns the new state and the returned (resized) frame.  The
`except Exception: pass` around the motion pipeline is the `.error` branch,
which keeps `human_mask` and `prev_motion` at their previous values. -/
def CinematicAsciiStrategy.resize_frame (ops : CinOps) (st : CinState)
    (frame : Mat Pixel) (dimensions : ℕ × ℕ) : CinState × Mat Pixel :=
  let frame_count := st.frame_count + 1
  let resized := ops.resizeParent frame dimensions
  let gray := ops.toGray resized
  let pf := st.prev_frames ++ [resized]
  let prev_frames := if st.max_frames < pf.length then pf.drop 1 else pf
  let motion :=
    if frame_count % 2 = 0 then
      match st.prev_gray with
      | some pg =>
        match tryMotion ops pg gray with
        | .ok r => (some r.1, some r.2)
        | .error _ => (st.human_mask, st.prev_motion)
      | none => (st.human_mask, st.prev_motion)
    else (st.human_mask, st.prev_motion)
  let sobel_x := ops.sobelX gray
  let sobel_y := ops.sobelY gray
  ({ prev_frames := prev_frames
     prev_gray := some gray
     prev_motion := motion.2
     max_frames := st.max_frames
     frame_count := frame_count
     human_mask := motion.1
     gradient_direction := some (ops.arctan2deg sobel_y sobel_x)
     gradient_magnitude := some (matDiv255 (ops.magnitude sobel_x sobel_y)) },
   resized)

/-- `HUMAN_CHARS = '@#$%&'`. -/
def HUMAN_CHARS : List Char := ['@', '#', '$', '%', '&']

/-- The first angular test of the edge branch:
`-22.5 <= angle < 22.5 or 157.5 <= angle <= 180 or -180 <= angle < -157.5`. -/
def horizontalAngle (angle : ℚ) : Prop :=
  (-22.5 ≤ angle ∧ angle < 22.5) ∨ (157.5 ≤ angle ∧ angle ≤ 180) ∨
    (-180 ≤ angle ∧ angle < -157.5)

instance (angle : ℚ) : Decidable (horizontalAngle angle) := by
  unfold horizontalAngle; infer_instance

/-- The second angular test of the edge branch:
`67.5 <= angle < 112.5 or -112.5 <= angle < -67.5`. -/
def verticalAngle (angle : ℚ) : Prop :=
  (67.5 ≤ angle ∧ angle < 112.5) ∨ (-112.5 ≤ angle ∧ angle < -67.5)

instance (angle : ℚ) : Decidable (verticalAngle angle) := by
  unfold verticalAngle; infer_instance

/-- `CinematicAsciiStrategy.apply_pixel_to_ascii_strategy`.  The source reads
the cursor position from `self.current_y` / `self.current_x`, set by the
frame driver immediately before each call; they are the explicit arguments
`y`, `x` here.  Array reads go through `Mat.read`, so an out-of-bounds numpy
access surfaces as `.error`. -/
def CinematicAsciiStrategy.apply_pixel_to_ascii_strategy (st : CinState)
    (y x : ℕ) (pixel : Pixel) : Except Unit ColoredText := do
  let r : ℚ := pixel.r
  let g : ℚ := pixel.g
  let b : ℚ := pixel.b
  let is_human : Bool ←
    match st.human_mask with
    | some m =>
      if x < m.cols ∧ y < m.rows then do
        let v ← m.read y x
        pure (decide (0 < v))
      else pure false
    | none => pure false
  let bright := rgb_to_brightness r g b false
  if is_human then
    let index := min (pyTrunc (bright / 256 * (HUMAN_CHARS.length : ℚ))).toNat
      (HUMAN_CHARS.length - 1)
    let ch := HUMAN_CHARS.getD index ' '
    pure (colorizeRgbPos (String.mk [ch, ch]) (rgb_to_ansi r g b))
  else do
    let edge : Option ColoredText ←
      match st.gradient_magnitude with
      | some gm =>
        if x < gm.cols ∧ y < gm.rows then do
          let magnitude ← gm.read y x
          if (0.5 : ℚ) < magnitude then
            match st.gradient_direction with
            | some gd =>
              if x < gd.cols then do
                let angle ← gd.read y x
                if horizontalAngle angle then
                  pure (some (colorizeRgbPos (String.mk ['-', '-']) (rgb_to_ansi r g b)))
                else if verticalAngle angle then
                  pure (some (colorizeRgbPos (String.mk ['|', '|']) (rgb_to_ansi r g b)))
                else pure none
              else pure none
            | none => pure none
          else pure none
        else pure none
      | none => pure none
    match edge with
    | some c => pure c
    | none => pure (pixel_to_ascii pixel true 1)

/-- `mapM` for `Except Unit`, written by structural recursion so the loops of
`convert_frame_pixels_to_ascii` translate directly. -/
def mapMExcept {α β : Type} (f : α → Except Unit β) : List α → Except Unit (List β)
  | [] => .ok []
  | a :: rest => do
    let b ← f a
    let bs ← mapMExcept f rest
    pure (b :: bs)

/-- `CinematicAsciiStrategy.convert_frame_pixels_to_ascii`.  The flat output
string is modelled as the list of its `ColoredText` pieces, in emission
order: per printable row, `printing_width` glyph cells then either `"\n"`
or the horizontal pad, and a final `"\r\n"`. -/
def CinematicAsciiStrategy.convert_frame_pixels_to_ascii (st : CinState)
    (frame : Mat Pixel) (dimensions : ℕ × ℕ) (new_line_chars : Bool) :
    Except Unit (List ColoredText) := do
  let cols := dimensions.1
  let h := frame.rows
  let w := frame.cols
  let printing_width := min cols (w * 2) / 2
  let pad : ℤ := max ((cols : ℤ) - printing_width * 2) 0
  let rowsOut ← mapMExcept (fun j => do
      let cells ← mapMExcept (fun i => do
          let pixel ← frame.read j i
          CinematicAsciiStrategy.apply_pixel_to_ascii_strategy st j i pixel)
        (List.range printing_width)
      pure (cells ++ [if new_line_chars then plainText (String.mk ['\n'])
                      else plainText (String.mk (List.replicate pad.toNat ' '))]))
    (List.range (h - 1))
  pure (rowsOut.flatten ++ [plainText (String.mk ['\r', '\n'])])

/-! ## render_strategy/__init__.py — the strategy registry -/

/-- The strategy variants instantiated by `render_strategy/__init__.py`. -/
inductive StratKind
  | color
  | bw
  | filled
  | adaptive
  | cinematic
  deriving DecidableEq

/-- One constructed strategy object.  `objId` is the object identity: module
initialisation runs each constructor exactly once, so each entry of
`STRATEGIES` holds one fixed identity for the whole process lifetime. -/
structure StrategyInstance where
  objId : ℕ
  kind : StratKind
  deriving DecidableEq

/-- The `STRATEGIES` dict of `render_strategy/__init__.py`: six constructor
calls evaluated once at module import, in source order, each producing a
distinct object. -/
def STRATEGIES (name : String) : Option StrategyInstance :=
  (([("default", ⟨0, .color⟩),
     ("ascii-color", ⟨1, .color⟩),
     ("just-ascii", ⟨2, .bw⟩),
     ("filled-ascii", ⟨3, .filled⟩),
     ("adaptive", ⟨4, .adaptive⟩),
     ("cinematic", ⟨5, .cinematic⟩)] : List (String × StrategyInstance)).lookup name)

/-- Modelled from the spec: the per-session strategy binding.  The binding
site (`video_engine.set_strategy`, called from each session's
`setup_engine`) is not among the analysed sources; per the spec every
session resolves its strategy-name in the fixed registry.  The session
identity is a parameter so the theorem can speak about two distinct
sessions. -/
def sessionStrategy (name : String) (sessionId : ℕ) : Option StrategyInstance :=
  STRATEGIES name

/-! ## ssh_server.py — chunked sender and playback pacing -/

/-- Python `range(start, stop, step)` for a positive step. -/
def pyRangeStep (start stop step : ℕ) : List ℕ :=
  (List.range ((stop - start + step - 1) / step)).map (fun k => start + k * step)

/-- The chunking of `SSHStreamStrategy.safe_send`:
`for i in range(0, len(data), 4096): chunk = data[i:i+4096]`.  `data` is the
UTF-8 encoded payload, one `ℕ` per byte. -/
def SSHStreamStrategy.safe_send_chunks (data : List ℕ) : List (List ℕ) :=
  (pyRangeStep 0 data.length 4096).map (fun i => (data.drop i).take 4096)

/-- `fps = cap.get(cv2.CAP_PROP_FPS) or 30` — a zero (falsy) reported rate
falls back to 30. -/
def effectiveFps (fps : ℚ) : ℚ :=
  if fps = 0 then 30 else fps

/-- `time_delta = 1./fps`. -/
def time_delta (fps : ℚ) : ℚ :=
  1 / effectiveFps fps

/-- One emitted frame of the playback loop: the frame (already rendered and
sent) and the pacing sleep executed after it. -/
structure Emission (α : Type) where
  frame : α
  sleep : ℚ

/-- The `while cap.isOpened()` playback loop of
`SSHStreamStrategy.stream_to_client`, abstracted over the per-frame wall
time `elapsed k` (read + render + send of the k-th frame) and the send
outcome `sendOk k`.  Each decoded frame is rendered and sent, then the loop
sleeps `max(0, time_delta - elapsed)`; a failed send breaks the loop. -/
def stream_playback {α : Type} (delta : ℚ) (elapsed : ℕ → ℚ) (sendOk : ℕ → Bool) :
    List α → ℕ → List (Emission α)
  | [], _ => []
  | f :: rest, k =>
    if sendOk k then
      ⟨f, max 0 (delta - elapsed k)⟩ :: stream_playback delta elapsed sendOk rest (k + 1)
    else []

/-! ## Helper lemmas on the Python numeric primitives -/

theorem pyTrunc_of_nonneg (q : ℚ) (h : 0 ≤ q) : pyTrunc q = ⌊q⌋ := by
  unfold pyTrunc
  rw [if_neg (not_lt.mpr h)]

theorem pyTrunc_natCast (n : ℕ) : pyTrunc (n : ℚ) = (n : ℤ) := by
  rw [pyTrunc_of_nonneg _ (by positivity), Int.floor_natCast]

theorem pyRound_nonneg (q : ℚ) (h : 0 ≤ q) : 0 ≤ pyRound q := by
  have hf : 0 ≤ ⌊q⌋ := Int.floor_nonneg.mpr h
  unfold pyRound
  dsimp only
  split_ifs <;> omega

theorem pyRound_le (q : ℚ) (n : ℤ) (h : q < (n : ℚ) + 1/2) : pyRound q ≤ n := by
  have hfl : ⌊q⌋ ≤ n := by
    have h1 : q < ((n + 1 : ℤ) : ℚ) := by push_cast; linarith
    have := (Int.floor_lt).mpr h1
    omega
  have hle : (⌊q⌋ : ℚ) ≤ q := Int.floor_le q
  unfold pyRound
  dsimp only
  split_ifs with h1 h2 h3
  · exact hfl
  · have hq : (⌊q⌋ : ℚ) + 1/2 < q := by linarith
    have : (⌊q⌋ : ℚ) < (n : ℚ) := by linarith
    have : ⌊q⌋ < n := by exact_mod_cast this
    omega
  · exact hfl
  · have hq : (⌊q⌋ : ℚ) + 1/2 = q := by linarith
    have : (⌊q⌋ : ℚ) < (n : ℚ) := by linarith
    have : ⌊q⌋ < n := by exact_mod_cast this
    omega

theorem nat_land_self (n : ℕ) : Nat.land n n = n := by
  have : n &&& n = n := Nat.eq_of_testBit_eq (fun i => by simp [Nat.testBit_and])
  exact this

theorem int_land_self_natCast (n : ℕ) : Int.land (n : ℤ) (n : ℤ) = (n : ℤ) := by
  have h : Int.land (Int.ofNat n) (Int.ofNat n) = Int.ofNat (Nat.land n n) := rfl
  rw [show ((n : ℤ) = Int.ofNat n) from rfl, h, nat_land_self]

/-! ## Chunked sender (C8) -/

theorem flatten_chunks_take (data : List ℕ) (n : ℕ) :
    ∀ m : ℕ, (((List.range m).map (fun k => (data.drop (k * n)).take n)).flatten
      = data.take (m * n)) := by
  intro m
  induction m with
  | zero => simp
  | succ m ih =>
    rw [List.range_succ, List.map_append, List.flatten_append]
    simp only [List.map_cons, List.map_nil, List.flatten_cons, List.flatten_nil,
      List.append_nil]
    rw [ih, ← List.take_add, Nat.succ_mul]

theorem ceil_div_mul_ge (len n : ℕ) (hn : 0 < n) : len ≤ (len + n - 1) / n * n := by
  have hdm := Nat.div_add_mod (len + n - 1) n
  have hlt := Nat.mod_lt (len + n - 1) hn
  rw [Nat.mul_comm]
  omega

/-- C8: for every payload, `safe_send` emits `ceil(len/4096)` consecutive
chunks, each of at most 4096 bytes, whose in-order concatenation equals the
encoded payload; in particular any 10000-byte payload is emitted as exactly
3 chunks of sizes 4096, 4096 and 1808 bytes. -/
theorem c8_safe_send_chunking (data : List ℕ) :
    (SSHStreamStrategy.safe_send_chunks data).length = (data.length + 4095) / 4096 ∧
    (∀ c ∈ SSHStreamStrategy.safe_send_chunks data, c.length ≤ 4096) ∧
    (SSHStreamStrategy.safe_send_chunks data).flatten = data ∧
    (data.length = 10000 →
      (SSHStreamStrategy.safe_send_chunks data).map List.length = [4096, 4096, 1808]) := by
  have hform : SSHStreamStrategy.safe_send_chunks data
      = (List.range ((data.length + 4095) / 4096)).map
          (fun k => (data.drop (k * 4096)).take 4096) := by
    unfold SSHStreamStrategy.safe_send_chunks pyRangeStep
    rw [List.map_map]
    congr 1
    funext k
    simp [Nat.mul_comm]
  refine ⟨?_, ?_, ?_, ?_⟩
  · rw [hform, List.length_map, List.length_range]
  · intro c hc
    rw [hform] at hc
    obtain ⟨k, _, rfl⟩ := List.mem_map.mp hc
    exact List.length_take_le 4096 (data.drop (k * 4096))
  · rw [hform, flatten_chunks_take]
    exact List.take_of_length_le (ceil_div_mul_ge data.length 4096 (by norm_num))
  · intro hlen
    rw [hform, hlen]
    norm_num [List.range_succ, List.length_take, List.length_drop, hlen]

/-- Witness for C8 at a concrete 10000-byte payload. -/
theorem c8_safe_send_chunking_witness :
    (SSHStreamStrategy.safe_send_chunks (List.replicate 10000 0)).map List.length
      = [4096, 4096, 1808] :=
  (c8_safe_send_chunking (List.replicate 10000 0)).2.2.2 (List.length_replicate 10000 0)

/-! ## Playback pacing (C2) -/

theorem stream_playback_enumFrom {α : Type} (delta : ℚ) (elapsed : ℕ → ℚ)
    (sendOk : ℕ → Bool) (hok : ∀ k, sendOk k = true) :
    ∀ (frames : List α) (k0 : ℕ),
      stream_playback delta elapsed sendOk frames k0
        = (frames.enumFrom k0).map
            (fun p => ⟨p.2, max 0 (delta - elapsed p.1)⟩) := by
  intro frames
  induction frames with
  | nil => intro k0; simp [stream_playback]
  | cons f rest ih =>
    intro k0
    rw [stream_playback, if_pos (hok k0), List.enumFrom_cons, List.map_cons, ih]

/-- C2: with a healthy transport, the playback loop renders and sends every
decoded frame in order (never dropping one), and after the k-th frame sleeps
exactly `max(0, 1/fps − elapsed k)`; a frame whose read+render+send cost
reaches `1/fps` is still emitted, with a sleep of exactly 0. -/
theorem c2_playback_pacing {α : Type} (fps : ℚ) (elapsed : ℕ → ℚ)
    (sendOk : ℕ → Bool) (frames : List α)
    (hfps : fps ≠ 0) (hok : ∀ k, sendOk k = true) :
    ((stream_playback (time_delta fps) elapsed sendOk frames 0).map Emission.frame
       = frames) ∧
    (stream_playback (time_delta fps) elapsed sendOk frames 0
       = frames.enum.map (fun p => ⟨p.2, max 0 (1 / fps - elapsed p.1)⟩)) ∧
    (∀ p ∈ frames.enum, 1 / fps ≤ elapsed p.1 →
       (⟨p.2, 0⟩ : Emission α) ∈ stream_playback (time_delta fps) elapsed sendOk frames 0) := by
  have hdelta : time_delta fps = 1 / fps := by
    unfold time_delta effectiveFps
    rw [if_neg hfps]
  rw [hdelta]
  have hmain := stream_playback_enumFrom (1 / fps) elapsed sendOk hok frames 0
  have henum : frames.enumFrom 0 = frames.enum := rfl
  rw [henum] at hmain
  refine ⟨?_, hmain, ?_⟩
  · rw [hmain, List.map_map]
    have : ∀ l : List (ℕ × α), (l.map fun p => p.2) = l.map Prod.snd := fun _ => rfl
    calc (frames.enum.map ((fun e => Emission.frame e) ∘
            fun p => ⟨p.2, max 0 (1 / fps - elapsed p.1)⟩))
        = frames.enum.map Prod.snd := rfl
      _ = frames := List.enum_map_snd frames
  · intro p hp hcost
    rw [hmain]
    have hzero : max 0 (1 / fps - elapsed p.1) = 0 := by
      rw [max_eq_left]
      linarith
    refine List.mem_map.mpr ⟨p, hp, ?_⟩
    show Emission.mk p.2 (max 0 (1 / fps - elapsed p.1)) = Emission.mk p.2 0
    rw [hzero]

/-- Witness for C2: two frames at 30 fps over an always-successful transport,
the second costing a full frame interval. -/
theorem c2_playback_pacing_witness :
    ((stream_playback (time_delta 30) (fun k => k) (fun _ => true) [7, 9] 0).map
        Emission.frame = [7, 9]) ∧
    (stream_playback (time_delta 30) (fun k => k) (fun _ => true) [7, 9] 0
       = ([7, 9] : List ℕ).enum.map
           (fun p => ⟨p.2, max 0 (1 / 30 - (p.1 : ℚ))⟩)) ∧
    (∀ p ∈ ([7, 9] : List ℕ).enum, 1 / 30 ≤ (p.1 : ℚ) →
       (⟨p.2, 0⟩ : Emission ℕ)
         ∈ stream_playback (time_delta 30) (fun k => k) (fun _ => true) [7, 9] 0) :=
  c2_playback_pacing 30 (fun k => k) (fun _ => true) [7, 9] (by norm_num) (fun _ => rfl)

/-! ## Strategy instance sharing (C1) -/

/-- C1 (falsified by the code): the strategy registry is built once at module
import, so *every* session that selects `"cinematic"` is handed the same
`CinematicAsciiStrategy` object (identity 5) — not a fresh per-stream
instance — and after the shared instance has served one frame `a` of session
A and then one frame `b` of session B, the frame history B's renders see
contains A's resized frame: the temporal state is cross-session shared. -/
theorem c1_shared_strategy_instance :
    (∀ s1 s2 : ℕ, sessionStrategy "cinematic" s1 = sessionStrategy "cinematic" s2) ∧
    sessionStrategy "cinematic" 0 = some ⟨5, StratKind.cinematic⟩ ∧
    (∀ (ops : CinOps) (a b : Mat Pixel) (d : ℕ × ℕ),
      (CinematicAsciiStrategy.resize_frame ops
          (CinematicAsciiStrategy.resize_frame ops CinematicAsciiStrategy.init a d).1
          b d).1.prev_frames
        = [ops.resizeParent a d, ops.resizeParent b d]) := by
  refine ⟨fun _ _ => rfl, rfl, fun ops a b d => rfl⟩

/-! ## Optical-flow failure policy (C7) -/

/-- C7: if the optical-flow pipeline of `resize_frame` raises, the stored
motion mask (`human_mask`) and motion magnitude (`prev_motion`) keep their
previous values, and preprocessing still completes normally, returning the
resized frame — the error never escapes to the playback loop. -/
theorem c7_optical_flow_failure_degrades (ops : CinOps) (st : CinState)
    (frame : Mat Pixel) (dims : ℕ × ℕ)
    (herr : ∀ pg, st.prev_gray = some pg →
      tryMotion ops pg (ops.toGray (ops.resizeParent frame dims)) = .error ()) :
    ((CinematicAsciiStrategy.resize_frame ops st frame dims).1.human_mask
        = st.human_mask) ∧
    ((CinematicAsciiStrategy.resize_frame ops st frame dims).1.prev_motion
        = st.prev_motion) ∧
    ((CinematicAsciiStrategy.resize_frame ops st frame dims).2
        = ops.resizeParent frame dims) := by
  unfold CinematicAsciiStrategy.resize_frame
  dsimp only
  by_cases hpar : (st.frame_count + 1) % 2 = 0
  · rw [if_pos hpar]
    cases hpg : st.prev_gray with
    | none => exact ⟨rfl, rfl, rfl⟩
    | some pg =>
      dsimp only
      rw [herr pg hpg]
      exact ⟨rfl, rfl, rfl⟩
  · rw [if_neg hpar]
    exact ⟨rfl, rfl, rfl⟩

/-- Operation record for the C7 witness: the Farneback call always raises. -/
def c7FailingOps : CinOps :=
  { resizeParent := fun f _ => f
    toGray := fun f => ⟨f.rows, f.cols, fun _ _ => 0⟩
    farneback := fun _ _ => .error ()
    cartToPolar := fun _ => .error ()
    morphologyOpen := fun m => .ok m
    morphologyClose := fun m => .ok m
    sobelX := fun g => ⟨g.rows, g.cols, fun _ _ => 0⟩
    sobelY := fun g => ⟨g.rows, g.cols, fun _ _ => 0⟩
    arctan2deg := fun a _ => a
    magnitude := fun a _ => a }

/-- State for the C7 witness: one frame already seen (`frame_count = 1`, a
previous grayscale frame stored), with a recognisable stale mask. -/
def c7State : CinState :=
  { prev_frames := [⟨1, 1, fun _ _ => ⟨0, 0, 0⟩⟩]
    prev_gray := some ⟨1, 1, fun _ _ => 7⟩
    prev_motion := some ⟨1, 1, fun _ _ => 9⟩
    max_frames := 3
    frame_count := 1
    human_mask := some ⟨1, 1, fun _ _ => 255⟩
    gradient_direction := none
    gradient_magnitude := none }

/-- Witness for C7: on the failing operations the motion attempt does run
(`frame_count` becomes 2, a previous gray frame exists) and raises, yet the
stale mask and magnitude survive and the resized frame is returned. -/
theorem c7_optical_flow_failure_degrades_witness :
    ((CinematicAsciiStrategy.resize_frame c7FailingOps c7State
        ⟨1, 1, fun _ _ => ⟨3, 3, 3⟩⟩ (80, 24)).1.human_mask = c7State.human_mask) ∧
    ((CinematicAsciiStrategy.resize_frame c7FailingOps c7State
        ⟨1, 1, fun _ _ => ⟨3, 3, 3⟩⟩ (80, 24)).1.prev_motion = c7State.prev_motion) ∧
    ((CinematicAsciiStrategy.resize_frame c7FailingOps c7State
        ⟨1, 1, fun _ _ => ⟨3, 3, 3⟩⟩ (80, 24)).2
      = c7FailingOps.resizeParent ⟨1, 1, fun _ _ => ⟨3, 3, 3⟩⟩ (80, 24)) :=
  c7_optical_flow_failure_degrades c7FailingOps c7State
    ⟨1, 1, fun _ _ => ⟨3, 3, 3⟩⟩ (80, 24) (fun _ _ => rfl)

/-! ## Brightness-to-glyph lookup (C4) -/

/-- C4, counterexample: at brightness 64 on the minimal tier the code indexes
with truncation, `int(10*64/255) = 2` giving `'.'`, while the claimed
`round((len-1)*v/255) = 3` would give `':'`. -/
theorem c4_round_counterexample :
    brightness_to_ascii 64 0
      ≠ (DENSITY.getD 0 []).getD
          (pyRound ((((DENSITY.getD 0 []).length - 1 : ℕ) : ℚ) * 64 / 255)).toNat ' ' := by
  have hq : ((((DENSITY.getD 0 []).length - 1 : ℕ)) : ℚ) * 64 / 255 = 128 / 51 := by
    norm_num [DENSITY, CHARS_LIGHT]
  have hfloor : ⌊(128 : ℚ) / 51⌋ = 2 := by norm_num
  have hL : brightness_to_ascii 64 0 = '.' := by
    unfold brightness_to_ascii
    dsimp only
    rw [hq, pyTrunc_of_nonneg _ (by norm_num), hfloor]
    rfl
  have hround : pyRound ((128 : ℚ) / 51) = 3 := by
    unfold pyRound
    dsimp only
    rw [hfloor]
    norm_num
  have hR : (DENSITY.getD 0 []).getD
      (pyRound ((((DENSITY.getD 0 []).length - 1 : ℕ) : ℚ) * 64 / 255)).toNat ' ' = ':' := by
    rw [hq, hround]
    rfl
  rw [hL, hR]
  decide

/-- C4, amended: `brightness_to_ascii(v, t)` returns the character at index
`⌊(len−1)·v/255⌋` (truncation, not rounding) of tier `t`'s table, and that
index is within the table. -/
theorem c4_brightness_floor_amended (v : ℚ) (h0 : 0 ≤ v) (h255 : v ≤ 255)
    (t : ℕ) (ht : t < 4) :
    brightness_to_ascii v t
      = (DENSITY.getD t []).getD
          (⌊(((DENSITY.getD t []).length - 1 : ℕ) : ℚ) * v / 255⌋).toNat ' ' ∧
    (⌊(((DENSITY.getD t []).length - 1 : ℕ) : ℚ) * v / 255⌋).toNat
        < (DENSITY.getD t []).length := by
  have hq0 : (0 : ℚ) ≤ (((DENSITY.getD t []).length - 1 : ℕ) : ℚ) * v / 255 := by
    apply div_nonneg _ (by norm_num)
    exact mul_nonneg (by positivity) h0
  constructor
  · unfold brightness_to_ascii
    dsimp only
    rw [pyTrunc_of_nonneg _ hq0]
  · have hlen : 0 < (DENSITY.getD t []).length := by
      interval_cases t <;> decide
    have hle : (((DENSITY.getD t []).length - 1 : ℕ) : ℚ) * v / 255
        ≤ (((DENSITY.getD t []).length - 1 : ℕ) : ℚ) := by
      rw [div_le_iff₀ (by norm_num)]
      have := mul_le_mul_of_nonneg_left h255 (show (0:ℚ) ≤ (((DENSITY.getD t []).length - 1 : ℕ) : ℚ) from by positivity)
      linarith
    have hfle : ⌊(((DENSITY.getD t []).length - 1 : ℕ) : ℚ) * v / 255⌋
        ≤ ((DENSITY.getD t []).length - 1 : ℕ) := by
      have := Int.floor_le_floor hle
      rwa [Int.floor_natCast] at this
    have := Int.toNat_le.mpr hfle
    omega

/-- Witness for C4's amended theorem at `v = 64`, tier 0. -/
theorem c4_brightness_floor_amended_witness :
    (brightness_to_ascii 64 0
      = (DENSITY.getD 0 []).getD
          (⌊(((DENSITY.getD 0 []).length - 1 : ℕ) : ℚ) * 64 / 255⌋).toNat ' ' ∧
    (⌊(((DENSITY.getD 0 []).length - 1 : ℕ) : ℚ) * 64 / 255⌋).toNat
        < (DENSITY.getD 0 []).length) :=
  c4_brightness_floor_amended 64 (by decide) (by decide) 0 (by decide)

/-! ## RGB → ANSI quantization (C5) -/

theorem pyRound_div51_bounds (c : ℕ) (hc : c ≤ 255) :
    0 ≤ pyRound ((c : ℚ) / 51) ∧ pyRound ((c : ℚ) / 51) ≤ 5 := by
  constructor
  · exact pyRound_nonneg _ (by positivity)
  · apply pyRound_le
    have hcq : ((c : ℚ)) ≤ 255 := by exact_mod_cast hc
    rw [div_lt_iff₀ (by norm_num)]
    push_cast
    linarith

/-- C5: `rgb_to_ansi` on byte triples.  Grayscale triples (`r=g=b`) map to 16
below 8, to 230 above 248, and otherwise into the 24-step grayscale ramp at
offset 232 (a value in `{16} ∪ [232,255] ∪ {230}`); all other triples map to
`16 + 36·round(r/51) + 6·round(g/51) + round(b/51)`, a value in `[16,231]`;
the result always lies in `[16,255]`. -/
theorem c5_rgb_to_ansi_contract (r g b : ℕ) (hr : r ≤ 255) (hg : g ≤ 255) (hb : b ≤ 255) :
    (16 ≤ rgb_to_ansi r g b ∧ rgb_to_ansi r g b ≤ 255) ∧
    (r = g ∧ g = b →
      (r < 8 → rgb_to_ansi r g b = 16) ∧
      (248 < r → rgb_to_ansi r g b = 230) ∧
      (8 ≤ r → r ≤ 248 →
        rgb_to_ansi r g b = pyRound (((r : ℚ) - 8) / 247 * 24) + 232 ∧
        232 ≤ rgb_to_ansi r g b ∧ rgb_to_ansi r g b ≤ 255) ∧
      (rgb_to_ansi r g b = 16 ∨ rgb_to_ansi r g b = 230 ∨
        (232 ≤ rgb_to_ansi r g b ∧ rgb_to_ansi r g b ≤ 255))) ∧
    (¬(r = g ∧ g = b) →
      rgb_to_ansi r g b
          = 16 + 36 * pyRound ((r : ℚ) / 51) + 6 * pyRound ((g : ℚ) / 51)
              + pyRound ((b : ℚ) / 51) ∧
      16 ≤ rgb_to_ansi r g b ∧ rgb_to_ansi r g b ≤ 231) := by
  have hunfold : rgb_to_ansi r g b
      = if (r : ℤ) = g ∧ (g : ℤ) = b then
          if (r : ℤ) < 8 then 16
          else if 248 < (r : ℤ) then 230
          else pyRound ((((r : ℤ) : ℚ) - 8) / 247 * 24) + 232
        else
          16 + 36 * pyRound ((((r : ℤ) : ℚ)) / 51) + 6 * pyRound ((((g : ℤ) : ℚ)) / 51)
            + pyRound ((((b : ℤ) : ℚ)) / 51) := by
    unfold rgb_to_ansi
    dsimp only
    rw [pyTrunc_natCast r, pyTrunc_natCast g, pyTrunc_natCast b, int_land_self_natCast g]
  have hcastq : ∀ n : ℕ, (((n : ℤ) : ℚ)) = (n : ℚ) := fun n => by push_cast; rfl
  rw [hcastq r, hcastq g, hcastq b] at hunfold
  by_cases hgray : r = g ∧ g = b
  · have hcond : (r : ℤ) = g ∧ (g : ℤ) = b := by
      exact_mod_cast hgray
    rw [if_pos hcond] at hunfold
    have hgraycases :
        (r < 8 → rgb_to_ansi r g b = 16) ∧
        (248 < r → rgb_to_ansi r g b = 230) ∧
        (8 ≤ r → r ≤ 248 →
          rgb_to_ansi r g b = pyRound (((r : ℚ) - 8) / 247 * 24) + 232 ∧
          232 ≤ rgb_to_ansi r g b ∧ rgb_to_ansi r g b ≤ 255) := by
      refine ⟨fun h8 => ?_, fun h248 => ?_, fun h8 h248 => ?_⟩
      · rw [hunfold, if_pos (by exact_mod_cast h8)]
      · rw [hunfold, if_neg (by omega), if_pos (by exact_mod_cast h248)]
      · have heq : rgb_to_ansi r g b = pyRound (((r : ℚ) - 8) / 247 * 24) + 232 := by
          rw [hunfold, if_neg (by exact_mod_cast (by omega : ¬ ((r:ℤ) < 8))),
            if_neg (by exact_mod_cast (by omega : ¬ ((248:ℤ) < r)))]
        have hrq : (8 : ℚ) ≤ (r : ℚ) ∧ (r : ℚ) ≤ 248 := by
          constructor <;> exact_mod_cast (by assumption)
        have hq0 : (0 : ℚ) ≤ ((r : ℚ) - 8) / 247 * 24 := by
          apply mul_nonneg _ (by norm_num)
          apply div_nonneg _ (by norm_num)
          linarith [hrq.1]
        have hlow : 0 ≤ pyRound (((r : ℚ) - 8) / 247 * 24) := pyRound_nonneg _ hq0
        have hhigh : pyRound (((r : ℚ) - 8) / 247 * 24) ≤ 23 := by
          apply pyRound_le
          rw [div_mul_eq_mul_div, div_lt_iff₀ (by norm_num)]
          push_cast
          linarith [hrq.2]
        exact ⟨heq, by omega, by omega⟩
    have hmember : rgb_to_ansi r g b = 16 ∨ rgb_to_ansi r g b = 230 ∨
        (232 ≤ rgb_to_ansi r g b ∧ rgb_to_ansi r g b ≤ 255) := by
      rcases Nat.lt_or_ge r 8 with h8 | h8
      · exact Or.inl (hgraycases.1 h8)
      · rcases Nat.lt_or_ge 248 r with h248 | h248
        · exact Or.inr (Or.inl (hgraycases.2.1 h248))
        · exact Or.inr (Or.inr (hgraycases.2.2 h8 h248).2)
    refine ⟨?_, fun _ => ⟨hgraycases.1, hgraycases.2.1, hgraycases.2.2, hmember⟩,
      fun hcontra => absurd hgray hcontra⟩
    rcases hmember with h | h | h
    · omega
    · omega
    · omega
  · have hcond : ¬((r : ℤ) = g ∧ (g : ℤ) = b) := by
      intro h
      exact hgray ⟨by exact_mod_cast h.1, by exact_mod_cast h.2⟩
    rw [if_neg hcond] at hunfold
    have hrb := pyRound_div51_bounds r hr
    have hgb := pyRound_div51_bounds g hg
    have hbb := pyRound_div51_bounds b hb
    have hbounds : 16 ≤ rgb_to_ansi r g b ∧ rgb_to_ansi r g b ≤ 231 := by
      rw [hunfold]
      omega
    exact ⟨⟨hbounds.1, by omega⟩, fun h => absurd h hgray, fun _ => ⟨hunfold, hbounds⟩⟩

/-- Witness for C5 at the grayscale triple (100,100,100) and the chromatic
triple (200,30,60). -/
theorem c5_rgb_to_ansi_contract_witness :
    ((16 ≤ rgb_to_ansi 100 100 100 ∧ rgb_to_ansi 100 100 100 ≤ 255) ∧
     (100 = 100 ∧ 100 = 100 →
       (100 < 8 → rgb_to_ansi 100 100 100 = 16) ∧
       (248 < 100 → rgb_to_ansi 100 100 100 = 230) ∧
       (8 ≤ 100 → 100 ≤ 248 →
         rgb_to_ansi 100 100 100 = pyRound ((((100 : ℕ) : ℚ) - 8) / 247 * 24) + 232 ∧
         232 ≤ rgb_to_ansi 100 100 100 ∧ rgb_to_ansi 100 100 100 ≤ 255) ∧
       (rgb_to_ansi 100 100 100 = 16 ∨ rgb_to_ansi 100 100 100 = 230 ∨
         (232 ≤ rgb_to_ansi 100 100 100 ∧ rgb_to_ansi 100 100 100 ≤ 255))) ∧
     (¬((100 : ℕ) = 100 ∧ (100 : ℕ) = 100) →
       rgb_to_ansi 100 100 100
           = 16 + 36 * pyRound (((100 : ℕ) : ℚ) / 51) + 6 * pyRound (((100 : ℕ) : ℚ) / 51)
               + pyRound (((100 : ℕ) : ℚ) / 51) ∧
       16 ≤ rgb_to_ansi 100 100 100 ∧ rgb_to_ansi 100 100 100 ≤ 231)) ∧
    (¬((200 : ℕ) = 30 ∧ (30 : ℕ) = 60) →
      rgb_to_ansi 200 30 60
          = 16 + 36 * pyRound (((200 : ℕ) : ℚ) / 51) + 6 * pyRound (((30 : ℕ) : ℚ) / 51)
              + pyRound (((60 : ℕ) : ℚ) / 51) ∧
      16 ≤ rgb_to_ansi 200 30 60 ∧ rgb_to_ansi 200 30 60 ≤ 231) :=
  ⟨c5_rgb_to_ansi_contract 100 100 100 (by decide) (by decide) (by decide),
   (c5_rgb_to_ansi_contract 200 30 60 (by decide) (by decide) (by decide)).2.2⟩

/-- Reduction of a `do`-bind over a successful `Except` step. -/
theorem except_bind_ok {α β : Type} (a : α) (f : α → Except Unit β) :
    (Except.ok a >>= f : Except Unit β) = f a := rfl

/-- `pure` for `Except Unit` is `Except.ok`. -/
theorem except_pure_eq_ok {β : Type} (c : β) : (pure c : Except Unit β) = Except.ok c := rfl

/-- Reduction of a `do`-bind over a raised `Except` step. -/
theorem except_bind_error {α β : Type} (f : α → Except Unit β) :
    (Except.error () >>= f : Except Unit β) = Except.error () := rfl

/-! ## Cinematic per-pixel precedence (C9) -/

/-- The three-way classification in the order the claim states it:
motion-emphasis (5-glyph `HUMAN_CHARS` set indexed by brightness, coloured
with the pixel's own colour) over strong-edge directional (threshold 0.5,
horizontal / vertical octants with wraparound at ±180°, other angles fall
through) over the plain density lookup.  Written from the claim, to be
compared with the translated `apply_pixel_to_ascii_strategy`. -/
def cinematicPrecedenceSpec (maskVal : ℕ) (magnitude angle : ℚ) (p : Pixel) : ColoredText :=
  if 0 < maskVal then
    let bright := rgb_to_brightness p.r p.g p.b false
    let index := min (pyTrunc (bright / 256 * (HUMAN_CHARS.length : ℚ))).toNat
      (HUMAN_CHARS.length - 1)
    let ch := HUMAN_CHARS.getD index ' '
    colorizeRgbPos (String.mk [ch, ch]) (rgb_to_ansi p.r p.g p.b)
  else if (0.5 : ℚ) < magnitude ∧ horizontalAngle angle then
    colorizeRgbPos (String.mk ['-', '-']) (rgb_to_ansi p.r p.g p.b)
  else if (0.5 : ℚ) < magnitude ∧ verticalAngle angle then
    colorizeRgbPos (String.mk ['|', '|']) (rgb_to_ansi p.r p.g p.b)
  else pixel_to_ascii p true 1

/-- C9: at any in-bounds position of a state whose temporal arrays are
populated (gradient direction and magnitude of one common shape, as
`resize_frame` stores them), the cinematic pixel classification equals the
claim's precedence: motion-emphasis over strong-edge directional over plain
density lookup. -/
theorem c9_cinematic_precedence (st : CinState) (hm : Mat ℕ) (gm gd : Mat ℚ)
    (hmask : st.human_mask = some hm)
    (hmag : st.gradient_magnitude = some gm)
    (hdir : st.gradient_direction = some gd)
    (hrows : gd.rows = gm.rows) (hcols : gd.cols = gm.cols)
    (y x : ℕ) (hy : y < hm.rows) (hx : x < hm.cols)
    (hy2 : y < gm.rows) (hx2 : x < gm.cols) (p : Pixel) :
    CinematicAsciiStrategy.apply_pixel_to_ascii_strategy st y x p
      = .ok (cinematicPrecedenceSpec (hm.data y x) (gm.data y x) (gd.data y x) p) := by
  unfold CinematicAsciiStrategy.apply_pixel_to_ascii_strategy cinematicPrecedenceSpec
  rw [hmask, hmag, hdir]
  unfold Mat.read
  by_cases hhuman : 0 < hm.data y x
  · simp [except_bind_ok, except_pure_eq_ok, hy, hx, hhuman]
  · by_cases hstrong : (0.5 : ℚ) < gm.data y x
    · by_cases hhor : horizontalAngle (gd.data y x)
      · simp [except_bind_ok, except_pure_eq_ok, hy, hx, hy2, hx2, hrows, hcols, hhuman, hstrong, hhor]
      · by_cases hver : verticalAngle (gd.data y x)
        · simp [except_bind_ok, except_pure_eq_ok, hy, hx, hy2, hx2, hrows, hcols, hhuman, hstrong, hhor, hver]
        · simp [except_bind_ok, except_pure_eq_ok, hy, hx, hy2, hx2, hrows, hcols, hhuman, hstrong, hhor, hver]
    · simp [except_bind_ok, except_pure_eq_ok, hy, hx, hy2, hx2, hrows, hcols, hhuman, hstrong]

/-- Mask for the C9 witness: every position marked as moving. -/
def c9Mask : Mat ℕ := ⟨1, 1, fun _ _ => 255⟩

/-- Gradient magnitude for the C9 witness. -/
def c9Mag : Mat ℚ := ⟨1, 1, fun _ _ => 0⟩

/-- Gradient direction for the C9 witness. -/
def c9Dir : Mat ℚ := ⟨1, 1, fun _ _ => 0⟩

/-- Strategy state for the C9 witness. -/
def c9State : CinState :=
  { CinematicAsciiStrategy.init with
    human_mask := some c9Mask
    gradient_magnitude := some c9Mag
    gradient_direction := some c9Dir }

/-- Witness for C9 at position (0,0) of a 1×1 motion-marked state. -/
theorem c9_cinematic_precedence_witness :
    CinematicAsciiStrategy.apply_pixel_to_ascii_strategy c9State 0 0 ⟨10, 20, 30⟩
      = .ok (cinematicPrecedenceSpec (c9Mask.data 0 0) (c9Mag.data 0 0)
          (c9Dir.data 0 0) ⟨10, 20, 30⟩) :=
  c9_cinematic_precedence c9State c9Mask c9Mag c9Dir rfl rfl rfl rfl rfl
    0 0 (by decide) (by decide) (by decide) (by decide) ⟨10, 20, 30⟩

/-! ## Cinematic classification totality (C10) -/

/-- The shape agreement `resize_frame` maintains between the two gradient
caches: they are stored together, from Sobel responses of the same grayscale
frame, so both are absent (fresh instance) or both present with equal
shape. -/
def gradShapesAgree (st : CinState) : Bool :=
  match st.gradient_magnitude, st.gradient_direction with
  | some gm, some gd => gm.rows == gd.rows && gm.cols == gd.cols
  | none, none => true
  | _, _ => false

/-- Position (y, x) lies outside every stored temporal array's shape. -/
def outsideStoredShapes (st : CinState) (y x : ℕ) : Bool :=
  (match st.human_mask with
   | some m => !(decide (x < m.cols ∧ y < m.rows))
   | none => true) &&
  (match st.gradient_magnitude with
   | some gm => !(decide (x < gm.cols ∧ y < gm.rows))
   | none => true) &&
  (match st.gradient_direction with
   | some gd => !(decide (x < gd.cols ∧ y < gd.rows))
   | none => true)

/-- Any state produced by `resize_frame` satisfies `gradShapesAgree`,
provided the (abstracted) elementwise OpenCV kernels preserve shape the way
numpy does; the initial state satisfies it trivially. -/
theorem resize_frame_gradShapesAgree (ops : CinOps) (st : CinState)
    (frame : Mat Pixel) (dims : ℕ × ℕ)
    (hshape : ∀ gray : Mat ℕ,
      (ops.magnitude (ops.sobelX gray) (ops.sobelY gray)).rows
          = (ops.arctan2deg (ops.sobelY gray) (ops.sobelX gray)).rows ∧
      (ops.magnitude (ops.sobelX gray) (ops.sobelY gray)).cols
          = (ops.arctan2deg (ops.sobelY gray) (ops.sobelX gray)).cols) :
    gradShapesAgree (CinematicAsciiStrategy.resize_frame ops st frame dims).1 = true := by
  unfold CinematicAsciiStrategy.resize_frame gradShapesAgree matDiv255
  dsimp only
  have h := hshape (ops.toGray (ops.resizeParent frame dims))
  simp [h.1, h.2]

/-- C10: under the shape agreement the code maintains between its gradient
caches, the cinematic pixel classification is total — every array access is
reached only with the index proven in range, so no read ever raises — and a
position outside all stored shapes falls through to the default density
lookup. -/
theorem c10_classification_total (st : CinState) (y x : ℕ) (p : Pixel)
    (hinv : gradShapesAgree st = true) :
    (∃ c, CinematicAsciiStrategy.apply_pixel_to_ascii_strategy st y x p
        = .ok c) ∧
    (outsideStoredShapes st y x = true →
      CinematicAsciiStrategy.apply_pixel_to_ascii_strategy st y x p
        = .ok (pixel_to_ascii p true 1)) := by
  unfold gradShapesAgree at hinv
  unfold CinematicAsciiStrategy.apply_pixel_to_ascii_strategy outsideStoredShapes
  unfold Mat.read
  cases hmask : st.human_mask with
  | none =>
    cases hmag : st.gradient_magnitude with
    | none =>
      cases hdir : st.gradient_direction with
      | none => exact ⟨by simp [except_bind_ok, except_pure_eq_ok], fun _ => by simp [except_bind_ok, except_pure_eq_ok]⟩
      | some gd => rw [hmag, hdir] at hinv; exact absurd hinv (by simp)
    | some gm =>
      cases hdir : st.gradient_direction with
      | none => rw [hmag, hdir] at hinv; exact absurd hinv (by simp)
      | some gd =>
        rw [hmag, hdir] at hinv
        have hshapes : gm.rows = gd.rows ∧ gm.cols = gd.cols := by
          simpa using hinv
        by_cases hbound : x < gm.cols ∧ y < gm.rows
        · by_cases hstrong : (0.5 : ℚ) < gm.data y x
          · constructor
            · by_cases hhor : horizontalAngle (gd.data y x)
              · exact by simp [except_bind_ok, except_pure_eq_ok, hbound.1, hbound.2, hshapes.1 ▸ hbound.2,
                  hshapes.2 ▸ hbound.1, hstrong, hhor]
              · by_cases hver : verticalAngle (gd.data y x)
                · exact by simp [except_bind_ok, except_pure_eq_ok, hbound.1, hbound.2, hshapes.1 ▸ hbound.2,
                    hshapes.2 ▸ hbound.1, hstrong, hhor, hver]
                · exact by simp [except_bind_ok, except_pure_eq_ok, hbound.1, hbound.2, hshapes.1 ▸ hbound.2,
                    hshapes.2 ▸ hbound.1, hstrong, hhor, hver]
            · intro hout
              simp [except_bind_ok, except_pure_eq_ok, hbound] at hout
          · exact ⟨by simp [except_bind_ok, except_pure_eq_ok, hbound.1, hbound.2, hstrong],
              fun hout => by simp [except_bind_ok, except_pure_eq_ok, hbound] at hout⟩
        · exact ⟨by simp [except_bind_ok, except_pure_eq_ok, hbound], fun _ => by simp [except_bind_ok, except_pure_eq_ok, hbound]⟩
  | some hmat =>
    by_cases hmb : x < hmat.cols ∧ y < hmat.rows
    · by_cases hhuman : 0 < hmat.data y x
      · exact ⟨by simp [except_bind_ok, except_pure_eq_ok, hmb.1, hmb.2, hhuman],
          fun hout => by simp [except_bind_ok, except_pure_eq_ok, hmb] at hout⟩
      · cases hmag : st.gradient_magnitude with
        | none =>
          cases hdir : st.gradient_direction with
          | none => exact ⟨by simp [except_bind_ok, except_pure_eq_ok, hmb.1, hmb.2, hhuman],
              fun hout => by simp [except_bind_ok, except_pure_eq_ok, hmb] at hout⟩
          | some gd => rw [hmag, hdir] at hinv; exact absurd hinv (by simp)
        | some gm =>
          cases hdir : st.gradient_direction with
          | none => rw [hmag, hdir] at hinv; exact absurd hinv (by simp)
          | some gd =>
            rw [hmag, hdir] at hinv
            have hshapes : gm.rows = gd.rows ∧ gm.cols = gd.cols := by
              simpa using hinv
            by_cases hbound : x < gm.cols ∧ y < gm.rows
            · by_cases hstrong : (0.5 : ℚ) < gm.data y x
              · by_cases hhor : horizontalAngle (gd.data y x)
                · exact ⟨by simp [except_bind_ok, except_pure_eq_ok, hmb.1, hmb.2, hhuman, hbound.1, hbound.2,
                    hshapes.1 ▸ hbound.2, hshapes.2 ▸ hbound.1, hstrong, hhor],
                    fun hout => by simp [except_bind_ok, except_pure_eq_ok, hmb] at hout⟩
                · by_cases hver : verticalAngle (gd.data y x)
                  · exact ⟨by simp [except_bind_ok, except_pure_eq_ok, hmb.1, hmb.2, hhuman, hbound.1, hbound.2,
                      hshapes.1 ▸ hbound.2, hshapes.2 ▸ hbound.1, hstrong, hhor, hver],
                      fun hout => by simp [except_bind_ok, except_pure_eq_ok, hmb] at hout⟩
                  · exact ⟨by simp [except_bind_ok, except_pure_eq_ok, hmb.1, hmb.2, hhuman, hbound.1, hbound.2,
                      hshapes.1 ▸ hbound.2, hshapes.2 ▸ hbound.1, hstrong, hhor, hver],
                      fun hout => by simp [except_bind_ok, except_pure_eq_ok, hmb] at hout⟩
              · exact ⟨by simp [except_bind_ok, except_pure_eq_ok, hmb.1, hmb.2, hhuman, hbound.1, hbound.2, hstrong],
                  fun hout => by simp [except_bind_ok, except_pure_eq_ok, hmb] at hout⟩
            · exact ⟨by simp [except_bind_ok, except_pure_eq_ok, hmb.1, hmb.2, hhuman, hbound],
                fun hout => by simp [except_bind_ok, except_pure_eq_ok, hmb] at hout⟩
    · cases hmag : st.gradient_magnitude with
      | none =>
        cases hdir : st.gradient_direction with
        | none => exact ⟨by simp [except_bind_ok, except_pure_eq_ok, hmb], fun _ => by simp [except_bind_ok, except_pure_eq_ok, hmb]⟩
        | some gd => rw [hmag, hdir] at hinv; exact absurd hinv (by simp)
      | some gm =>
        cases hdir : st.gradient_direction with
        | none => rw [hmag, hdir] at hinv; exact absurd hinv (by simp)
        | some gd =>
          rw [hmag, hdir] at hinv
          have hshapes : gm.rows = gd.rows ∧ gm.cols = gd.cols := by
            simpa using hinv
          by_cases hbound : x < gm.cols ∧ y < gm.rows
          · by_cases hstrong : (0.5 : ℚ) < gm.data y x
            · by_cases hhor : horizontalAngle (gd.data y x)
              · exact ⟨by simp [except_bind_ok, except_pure_eq_ok, hmb, hbound.1, hbound.2,
                  hshapes.1 ▸ hbound.2, hshapes.2 ▸ hbound.1, hstrong, hhor],
                  fun hout => by simp [except_bind_ok, except_pure_eq_ok, hbound] at hout⟩
              · by_cases hver : verticalAngle (gd.data y x)
                · exact ⟨by simp [except_bind_ok, except_pure_eq_ok, hmb, hbound.1, hbound.2,
                    hshapes.1 ▸ hbound.2, hshapes.2 ▸ hbound.1, hstrong, hhor, hver],
                    fun hout => by simp [except_bind_ok, except_pure_eq_ok, hbound] at hout⟩
                · exact ⟨by simp [except_bind_ok, except_pure_eq_ok, hmb, hbound.1, hbound.2,
                    hshapes.1 ▸ hbound.2, hshapes.2 ▸ hbound.1, hstrong, hhor, hver],
                    fun hout => by simp [except_bind_ok, except_pure_eq_ok, hbound] at hout⟩
            · exact ⟨by simp [except_bind_ok, except_pure_eq_ok, hmb, hbound.1, hbound.2, hstrong],
                fun hout => by simp [except_bind_ok, except_pure_eq_ok, hbound] at hout⟩
          · exact ⟨by simp [except_bind_ok, except_pure_eq_ok, hmb, hbound], fun _ => by simp [except_bind_ok, except_pure_eq_ok, hmb, hbound]⟩

/-- State for the C10 witness: stored 1×1 arrays, probed at position (5,5),
outside every stored shape. -/
def c10State : CinState :=
  { CinematicAsciiStrategy.init with
    human_mask := some ⟨1, 1, fun _ _ => 255⟩
    gradient_magnitude := some ⟨1, 1, fun _ _ => 1⟩
    gradient_direction := some ⟨1, 1, fun _ _ => 0⟩ }

/-- Witness for C10: outside the stored shapes the classification still
succeeds and falls through to the default density lookup. -/
theorem c10_classification_total_witness :
    (∃ c, CinematicAsciiStrategy.apply_pixel_to_ascii_strategy c10State 5 5 ⟨1, 2, 3⟩
        = .ok c) ∧
    (outsideStoredShapes c10State 5 5 = true →
      CinematicAsciiStrategy.apply_pixel_to_ascii_strategy c10State 5 5 ⟨1, 2, 3⟩
        = .ok (pixel_to_ascii ⟨1, 2, 3⟩ true 1)) :=
  c10_classification_total c10State 5 5 ⟨1, 2, 3⟩ (by decide)

/-! ## Compositor layout (C6) -/

theorem mapMExcept_ok {α β : Type} (f : α → Except Unit β) (g : α → β) :
    ∀ l : List α, (∀ a ∈ l, f a = .ok (g a)) → mapMExcept f l = .ok (l.map g) := by
  intro l
  induction l with
  | nil => intro _; rfl
  | cons a rest ih =>
    intro hall
    have ha := hall a (List.mem_cons_self a rest)
    have hrest := ih (fun z hz => hall z (List.mem_cons_of_mem a hz))
    simp only [mapMExcept, ha, hrest, except_bind_ok, except_pure_eq_ok, List.map_cons]

set_option maxHeartbeats 1600000 in
theorem apply_pixel_text_length (st : CinState) (y x : ℕ) (p : Pixel) (c : ColoredText)
    (h : CinematicAsciiStrategy.apply_pixel_to_ascii_strategy st y x p = .ok c) :
    c.text.length = 2 := by
  unfold CinematicAsciiStrategy.apply_pixel_to_ascii_strategy Mat.read at h
  repeat' (first
    | (split at h)
    | (simp only [except_bind_ok, except_bind_error, except_pure_eq_ok] at h))
  all_goals
    first
    | exact Except.noConfusion h
    | (injection h with hc; subst hc; rfl)

/-- C6: in pad mode the cinematic compositor emits exactly `rows−1` printable
rows — the last source row dropped — each consisting of `printing_width`
glyph cells of two characters (`2·printingWidth` glyph characters, with
`printingWidth = min(columns, 2·w)/2`) followed by
`max(columns − 2·printingWidth, 0)` pad spaces, the whole frame being
terminated by a single `"\r\n"`. -/
theorem c6_cinematic_frame_layout (st : CinState) (frame : Mat Pixel)
    (cols rows : ℕ) (cellf : ℕ → ℕ → ColoredText)
    (hcell : ∀ j i, CinematicAsciiStrategy.apply_pixel_to_ascii_strategy st j i
        (frame.data j i) = .ok (cellf j i)) :
    CinematicAsciiStrategy.convert_frame_pixels_to_ascii st frame (cols, rows) false
      = .ok (((List.range (frame.rows - 1)).map (fun j =>
            ((List.range (min cols (frame.cols * 2) / 2)).map (fun i => cellf j i)) ++
              [plainText (String.mk (List.replicate
                  (max ((cols : ℤ) - (min cols (frame.cols * 2) / 2 : ℕ) * 2) 0).toNat
                  ' '))])).flatten
          ++ [plainText (String.mk ['\r', '\n'])]) ∧
    (∀ j, ((List.range (min cols (frame.cols * 2) / 2)).map
        (fun i => (cellf j i).text.length)).sum = 2 * (min cols (frame.cols * 2) / 2)) := by
  have hpw_le : min cols (frame.cols * 2) / 2 ≤ frame.cols := by
    calc min cols (frame.cols * 2) / 2
        ≤ (frame.cols * 2) / 2 := Nat.div_le_div_right (min_le_right _ _)
      _ = frame.cols := by omega
  constructor
  · unfold CinematicAsciiStrategy.convert_frame_pixels_to_ascii
    dsimp only
    simp only [Bool.false_eq_true, if_false]
    have hinner : ∀ j ∈ List.range (frame.rows - 1),
        mapMExcept (fun i => do
            let pixel ← frame.read j i
            CinematicAsciiStrategy.apply_pixel_to_ascii_strategy st j i pixel)
          (List.range (min cols (frame.cols * 2) / 2))
          = .ok ((List.range (min cols (frame.cols * 2) / 2)).map (fun i => cellf j i)) := by
      intro j hj
      apply mapMExcept_ok
      intro i hi
      have hjlt : j < frame.rows := by
        have := List.mem_range.mp hj
        omega
      have hilt : i < frame.cols := lt_of_lt_of_le (List.mem_range.mp hi) hpw_le
      unfold Mat.read
      rw [if_pos ⟨hjlt, hilt⟩, except_bind_ok]
      exact hcell j i
    have houter := mapMExcept_ok
      (fun j => do
        let cells ← mapMExcept (fun i => do
            let pixel ← frame.read j i
            CinematicAsciiStrategy.apply_pixel_to_ascii_strategy st j i pixel)
          (List.range (min cols (frame.cols * 2) / 2))
        pure (cells ++ [plainText (String.mk (List.replicate
            (max ((cols : ℤ) - (min cols (frame.cols * 2) / 2 : ℕ) * 2) 0).toNat ' '))]))
      (fun j => ((List.range (min cols (frame.cols * 2) / 2)).map (fun i => cellf j i)) ++
          [plainText (String.mk (List.replicate
              (max ((cols : ℤ) - (min cols (frame.cols * 2) / 2 : ℕ) * 2) 0).toNat ' '))])
      (List.range (frame.rows - 1))
      (fun j hj => by
        dsimp only
        rw [hinner j hj, except_bind_ok, except_pure_eq_ok])
    rw [houter, except_bind_ok, except_pure_eq_ok]
  · intro j
    have hconst : ((List.range (min cols (frame.cols * 2) / 2)).map
        (fun i => (cellf j i).text.length))
          = (List.range (min cols (frame.cols * 2) / 2)).map (fun _ => 2) := by
      apply List.map_congr_left
      intro i _
      exact apply_pixel_text_length st j i (frame.data j i) (cellf j i) (hcell j i)
    rw [hconst, List.map_const']
    simp [List.sum_replicate, Nat.mul_comm]

/-- Frame for the C6 witness: 3 source rows, 2 source columns, all black. -/
def c6Frame : Mat Pixel := ⟨3, 2, fun _ _ => ⟨0, 0, 0⟩⟩

/-- Witness for C6: a 3×2 frame against a 4-column terminal on a fresh
strategy state — two printable rows of two glyph cells, zero pad, one
`"\r\n"`. -/
theorem c6_cinematic_frame_layout_witness :
    CinematicAsciiStrategy.convert_frame_pixels_to_ascii CinematicAsciiStrategy.init
        c6Frame (4, 3) false
      = .ok (((List.range (c6Frame.rows - 1)).map (fun j =>
            ((List.range (min 4 (c6Frame.cols * 2) / 2)).map
                (fun i => pixel_to_ascii (c6Frame.data j i) true 1)) ++
              [plainText (String.mk (List.replicate
                  (max ((4 : ℤ) - (min 4 (c6Frame.cols * 2) / 2 : ℕ) * 2) 0).toNat
                  ' '))])).flatten
          ++ [plainText (String.mk ['\r', '\n'])]) ∧
    (∀ j, ((List.range (min 4 (c6Frame.cols * 2) / 2)).map
        (fun i => ((fun j i => pixel_to_ascii (c6Frame.data j i) true 1) j i).text.length)).sum
          = 2 * (min 4 (c6Frame.cols * 2) / 2)) :=
  c6_cinematic_frame_layout CinematicAsciiStrategy.init c6Frame 4 3
    (fun j i => pixel_to_ascii (c6Frame.data j i) true 1) (fun _ _ => rfl)

/-! ## Adaptive pixel enhancement (C3) -/

theorem adaptive_hsv_at_c3 :
    rgb_to_hsv (((100 : ℕ) : ℚ) / 255) (((50 : ℕ) : ℚ) / 255) (((50 : ℕ) : ℚ) / 255)
      = (0, 1/2, 20/51) := by
  unfold rgb_to_hsv
  norm_num [max_def, min_def]

theorem adaptive_hsv_back_at_c3 :
    hsv_to_rgb 0 (7/10) (22/51) = (22/51, 11/85, 11/85) := by
  unfold hsv_to_rgb pyTrunc
  norm_num

theorem detailed_glyph_at_spec_brightness :
    brightness_to_ascii (53559/1000) 3 = '+' := by
  unfold brightness_to_ascii
  dsimp only
  rw [show DENSITY.getD 3 [] = CHARS_DETAILED by decide,
    show (CHARS_DETAILED.length - 1 : ℕ) = 58 by decide,
    pyTrunc_of_nonneg _ (by positivity),
    show ⌊((58 : ℕ) : ℚ) * (53559 / 1000) / 255⌋ = 12 by norm_num]
  decide

theorem detailed_glyph_at_code_brightness :
    brightness_to_ascii (1267/20) 3 = '>' := by
  unfold brightness_to_ascii
  dsimp only
  rw [show DENSITY.getD 3 [] = CHARS_DETAILED by decide,
    show (CHARS_DETAILED.length - 1 : ℕ) = 58 by decide,
    pyTrunc_of_nonneg _ (by positivity),
    show ⌊((58 : ℕ) : ℚ) * (1267 / 20) / 255⌋ = 14 by norm_num]
  decide

/-- C3 (falsified by the code): the adaptive pixel path computes the claimed
40% saturation / 10% value boost and then discards it — the returned cell is
`pixel_to_ascii(pixel, density=3)` on the unmodified pixel, whose colour path
applies the additive `+0.3/+0.1` tweak instead and whose glyph is chosen from
the *unboosted* brightness.  At the pixel BGR=(50,50,100) the code renders
the glyph `'>'` whereas the spec's procedure renders `'+'`. -/
theorem c3_adaptive_boost_discarded :
    (∀ p : Pixel, AdaptiveAsciiStrategy.apply_pixel_to_ascii_strategy p
        = pixel_to_ascii p true 3) ∧
    AdaptiveAsciiStrategy.apply_pixel_to_ascii_strategy ⟨50, 50, 100⟩
      ≠ adaptivePixelSpec ⟨50, 50, 100⟩ := by
  constructor
  · intro p
    rfl
  · have hbright : rgb_to_brightness (((100 : ℕ) : ℚ)) (((50 : ℕ) : ℚ)) (((50 : ℕ) : ℚ)) false
        = 1267/20 := by
      norm_num [rgb_to_brightness]
    have hact : (AdaptiveAsciiStrategy.apply_pixel_to_ascii_strategy ⟨50, 50, 100⟩).text
        = String.mk ['>', '>'] := by
      have hform : (AdaptiveAsciiStrategy.apply_pixel_to_ascii_strategy ⟨50, 50, 100⟩).text
          = String.mk
              [brightness_to_ascii (rgb_to_brightness (((100 : ℕ) : ℚ)) (((50 : ℕ) : ℚ))
                  (((50 : ℕ) : ℚ)) false) 3,
               brightness_to_ascii (rgb_to_brightness (((100 : ℕ) : ℚ)) (((50 : ℕ) : ℚ))
                  (((50 : ℕ) : ℚ)) false) 3] := rfl
      rw [hform, hbright, detailed_glyph_at_code_brightness]
    have hspec : (adaptivePixelSpec ⟨50, 50, 100⟩).text = String.mk ['+', '+'] := by
      have hform : adaptivePixelSpec ⟨50, 50, 100⟩
          = (let hsv := rgb_to_hsv (((100 : ℕ) : ℚ) / 255) (((50 : ℕ) : ℚ) / 255)
                (((50 : ℕ) : ℚ) / 255)
             let s := min (hsv.2.1 * 1.4) 1
             let v := min (hsv.2.2 * 1.1) 1
             let rgb2 := hsv_to_rgb hsv.1 s v
             let r2 := rgb2.1 * 255
             let g2 := rgb2.2.1 * 255
             let b2 := rgb2.2.2 * 255
             let bright := rgb_to_brightness r2 g2 b2 false
             let ch := brightness_to_ascii bright 3
             colorizeAnsi (String.mk [ch, ch]) (rgb_to_ansi r2 g2 b2)) := rfl
      rw [hform, adaptive_hsv_at_c3]
      dsimp only
      have hs : min ((1/2 : ℚ) * 1.4) 1 = 7/10 := by norm_num [min_def]
      have hv : min ((20/51 : ℚ) * 1.1) 1 = 22/51 := by norm_num [min_def]
      rw [hs, hv, adaptive_hsv_back_at_c3]
      dsimp only
      have hr2 : (22/51 : ℚ) * 255 = 110 := by norm_num
      have hg2 : (11/85 : ℚ) * 255 = 33 := by norm_num
      rw [hr2, hg2]
      have hbright2 : rgb_to_brightness 110 33 33 false = 53559/1000 := by
        norm_num [rgb_to_brightness]
      rw [hbright2, detailed_glyph_at_spec_brightness]
      rfl
    intro h
    rw [h] at hact
    rw [hact] at hspec
    exact absurd hspec (by decide)

end VideoToAscii
